import Mathlib

/-!
Verification development for the cross-organization people API route
(`src/api/client/people.ts` of opensource-management-portal).

The file embeds the route's pure logic in Lean: the TTL memo cache, the
`getPeopleAcrossOrganizations` fetch-or-populate function, the query
processing of `equivalentLegacyPeopleSearch` (type-filter validation,
display-filter assembly, search parameters), the page slicer, and the
per-member record normalizer that shapes each response item with
JavaScript `Object.assign` semantics.

`LeakyLocalCache` (imported from `./leakyLocalCache`) and `JsonPager`
(imported from `./jsonPager`) are not among the available source files;
they are modelled from the specification, as marked on each definition.
JavaScript runtime aspects are made explicit: truthiness tests become
boolean predicates, possibly-absent values become `Option`, timestamps
become a `Nat` parameter `now`, and a fallible provider call becomes an
`Except` value together with an invocation counter.
-/

/-- Modelled from the spec: `LeakyLocalCache` is imported from
`./leakyLocalCache`, a file of this repository that is not among the
available sources. Per the spec it is a generic key→value store; each
entry carries an `insertedAt` timestamp, the TTL is a cache-wide constant
fixed at construction, and an entry is valid only while
`now - insertedAt < ttl` (expired entries are treated as absent, lazily). -/
structure LeakyLocalCache (K V : Type) where
  ttl : Nat
  entries : List (K × V × Nat)
deriving DecidableEq

/-- Lookup of the stored `(value, insertedAt)` entry for a key, most recent
insertion first. -/
def lookupEntry [DecidableEq K] : List (K × V × Nat) → K → Option (V × Nat)
  | [], _ => none
  | (k', v, t) :: rest, k => if k' = k then some (v, t) else lookupEntry rest k

/-- Modelled from the spec: `get(key)` "returns the cached value if an entry
exists for `key` and has not exceeded its TTL; otherwise returns absent";
the entry "is valid only while `now - insertedAt < ttl`". -/
def LeakyLocalCache.get [DecidableEq K] (c : LeakyLocalCache K V) (k : K)
    (now : Nat) : Option V :=
  match lookupEntry c.entries k with
  | some (v, insertedAt) => if now - insertedAt < c.ttl then some v else none
  | none => none

/-- Modelled from the spec: `set(key, value)` "inserts/overwrites the entry
for `key` with the current timestamp"; no per-call TTL. -/
def LeakyLocalCache.set [DecidableEq K] (c : LeakyLocalCache K V) (k : K)
    (v : V) (now : Nat) : LeakyLocalCache K V :=
  { c with entries := (k, v, now) :: c.entries.filter (fun e => decide (e.1 ≠ k)) }

/-- `ISimpleAccount` from `src/api/client/people.ts:88-92`. -/
structure ISimpleAccount where
  login : String
  avatar_url : String
  id : Int
deriving DecidableEq, Repr

/-- `ICrossOrganizationSearchedMember` from `src/api/client/people.ts:101-106`,
generic in the corporate-link type (`ICorporateLink` is external, from
`../../business`). `account` and `orgs` are modelled as possibly absent
because the route handler guards both (`xMember.account || ...`,
`xMember.orgs ? ... : []`); `orgs` is the per-organization mapping
`IOrganizationMembershipAccount`, an ordered association from organization
name to that organization's view of the account. -/
structure ICrossOrganizationSearchedMember (Link : Type) where
  id : Int
  account : Option ISimpleAccount
  link : Option Link
  orgs : Option (List (String × ISimpleAccount))
deriving DecidableEq

/-- `ICrossOrganizationMembersResult` (imported from `../../business`): the
cross-organization membership snapshot. Its content is opaque to this file. -/
structure ICrossOrganizationMembersResult (Link : Type) where
  members : List (ICrossOrganizationSearchedMember Link)
deriving DecidableEq

/-- JavaScript truthiness of an `ICrossOrganizationMembersResult` value: it
is an object value, and every object is truthy. -/
def crossOrgResultTruthy {Link : Type} :
    ICrossOrganizationMembersResult Link → Bool :=
  fun _ => true

/-- The observable outcome of one call to `getPeopleAcrossOrganizations`
(`src/api/client/people.ts:27-35`): the returned value or the propagated
provider error, the cache state after the call, and how many times the
membership provider `operations.getMembers` was invoked during the call. -/
structure PeopleFetchOutcome (E V : Type) where
  result : Except E V
  cache : LeakyLocalCache Bool V
  getMembersCalls : Nat

/-- `getPeopleAcrossOrganizations` from `src/api/client/people.ts:27-35`,
embedded with explicit cache state and time. `truthy` is JavaScript
truthiness on the cached value type (the source tests `if (value)`);
`getMembers` is the result the membership provider produces if it is
invoked during this call. The source reads the cache under the constant
key `true`, serves a truthy cached value, and otherwise awaits the
provider and stores its result under the same key. -/
def getPeopleAcrossOrganizations {E V : Type} (truthy : V → Bool)
    (getMembers : Except E V) (cache : LeakyLocalCache Bool V) (now : Nat) :
    PeopleFetchOutcome E V :=
  let fetch : PeopleFetchOutcome E V :=
    match getMembers with
    | Except.error e => { result := Except.error e, cache := cache, getMembersCalls := 1 }
    | Except.ok m =>
      { result := Except.ok m, cache := cache.set true m now, getMembersCalls := 1 }
  match cache.get true now with
  | some value =>
    if truthy value then { result := Except.ok value, cache := cache, getMembersCalls := 0 }
    else fetch
  | none => fetch

/-- The valid `type` query values from `src/api/client/people.ts:45-53`. -/
def validTypes : List String :=
  ["linked", "active", "unlinked", "former", "serviceAccount", "unknownAccount", "owners"]

/-- The `type` normalization at `src/api/client/people.ts:54-56`:
`if (!validTypes.has(type)) { type = null; }`. An absent query parameter is
`undefined`, which is likewise not in the set and becomes `null` (`none`). -/
def normalizeTypeFilter (qType : Option String) : Option String :=
  match qType with
  | some t => if validTypes.contains t then some t else none
  | none => none

/-- One display-filter object as pushed onto `filters` at
`src/api/client/people.ts:57-72`; fields not set by a branch are absent. -/
structure SearchFilter where
  type : String
  value : String
  displayValue : Option String := none
  displayPrefix : Option String := none
  displaySuffix : Option String := none
deriving DecidableEq, Repr

/-- The query-dependent `MemberSearch` construction parameters from
`src/api/client/people.ts:73-82`. -/
structure MemberSearchOptions where
  phrase : Option String
  type : Option String
  pageSize : Nat
  orgId : Option Int
  isOrganizationScoped : Bool
deriving DecidableEq, Repr

/-- The pure query-processing core of `equivalentLegacyPeopleSearch`
(`src/api/client/people.ts:38-86`): type-filter validation, display-filter
assembly in push order, and the `MemberSearch` construction parameters.
Provider-derived inputs (`links`, `providers`, `crossOrganizationMembers`)
do not depend on the query and are not part of the record. String
truthiness is explicit: `if (type)` and `if (phrase)` are false for
`null`/`undefined` and for the empty string. -/
def equivalentLegacyPeopleSearchSetup (qType qPhrase : Option String)
    (orgId : Option Int) : List SearchFilter × MemberSearchOptions :=
  let type := normalizeTypeFilter qType
  let typeFilters : List SearchFilter :=
    match type with
    | some t =>
      if t != "" then
        [{ type := "type", value := t,
           displayValue := some (if t == "former" then "formerly known" else t),
           displaySuffix := some "members" }]
      else []
    | none => []
  let phraseFilters : List SearchFilter :=
    match qPhrase with
    | some p =>
      if p != "" then
        [{ type := "phrase", value := p, displayPrefix := some "matching" }]
      else []
    | none => []
  (typeFilters ++ phraseFilters,
   { phrase := qPhrase, type := type, pageSize := 1000000, orgId := orgId,
     isOrganizationScoped := false })

/-- The page number computed at `src/api/client/people.ts:43`:
`req.query.page_number ? Number(req.query.page_number) : 1`. The query
parameter is a string or absent; an absent or empty string is falsy and
yields the default `1`. `number` is the JavaScript `Number` coercion,
external to this file. -/
def searchPageFromQuery (number : String → Int) (q : Option String) : Int :=
  match q with
  | some s => if s != "" then number s else 1
  | none => 1

/-- Modelled from the spec: `JsonPager` is imported from `./jsonPager`, a
file of this repository that is not among the available sources. Per the
spec the page number is taken from the `page_number` query parameter, a
"positive integer, default 1", and "pageNumber < 1 is normalized to 1". -/
def JsonPager.effectivePageNumber : Option Int → Nat
  | none => 1
  | some n => if n < 1 then 1 else n.toNat

/-- Modelled from the spec: the `JsonPager` page slicer returns "the
contiguous sub-sequence `[(pageNumber-1)*pageSize, pageNumber*pageSize)`,
clipped to the collection bounds", an empty page when the offset is beyond
the collection, never an error. -/
def JsonPager.slice (qPageNumber : Option Int) (pageSize : Nat)
    (xs : List α) : List α :=
  let pn := JsonPager.effectivePageNumber qPageNumber
  (xs.drop ((pn - 1) * pageSize)).take pageSize

/-- One JavaScript object of the shapes assembled by the route handler at
`src/api/client/people.ts:119-126`: a partial record whose fields may be
absent (`none`). The `link` field, when present on the object, holds either
a serialized link or JavaScript `null` (the inner `none`). -/
structure JsOutputObj (LinkJson : Type) where
  link : Option (Option LinkJson) := none
  id : Option Int := none
  organizations : Option (List String) := none
  login : Option String := none
  avatar_url : Option String := none
deriving DecidableEq

/-- JavaScript `Object.assign(a, b)` restricted to the field names occurring
in this route: a field of `b`, when present, overwrites the field of `a`. -/
def JsOutputObj.assign {LinkJson : Type} (a b : JsOutputObj LinkJson) :
    JsOutputObj LinkJson :=
  { link := b.link.orElse (fun _ => a.link),
    id := b.id.orElse (fun _ => a.id),
    organizations := b.organizations.orElse (fun _ => a.organizations),
    login := b.login.orElse (fun _ => a.login),
    avatar_url := b.avatar_url.orElse (fun _ => a.avatar_url) }

/-- The per-member normalization at `src/api/client/people.ts:119-126`:
`Object.assign({ link: xMember.link ? corporateLinkToJson(xMember.link) : null,
id: xMember.id, organizations: xMember.orgs ?
Object.getOwnPropertyNames(xMember.orgs) : [] },
xMember.account || { id: xMember.id })`. `corporateLinkToJson` is external
(from `../../business`) and passed in as `linkToJson`;
`Object.getOwnPropertyNames` on the per-organization mapping is its keys in
insertion order. -/
def normalizeSearchedMember {Link LinkJson : Type} (linkToJson : Link → LinkJson)
    (xMember : ICrossOrganizationSearchedMember Link) : JsOutputObj LinkJson :=
  JsOutputObj.assign
    { link := some (match xMember.link with
        | some l => some (linkToJson l)
        | none => none),
      id := some xMember.id,
      organizations := some (match xMember.orgs with
        | some os => os.map Prod.fst
        | none => []) }
    (match xMember.account with
     | some a => { login := some a.login, avatar_url := some a.avatar_url, id := some a.id }
     | none => { id := some xMember.id })

/-- C1: for every key `k` and value `v`, the cache's `get k` returns the value
stored by the most recent `set k v` if and only if the time elapsed since
that set is less than the cache-wide TTL; once the TTL has elapsed with no
intervening set, `get k` returns absent. -/
theorem leakyLocalCache_ttl {K V : Type} [DecidableEq K]
    (c : LeakyLocalCache K V) (k : K) (v : V) (tset tget : Nat)
    (h : tset ≤ tget) :
    ((c.set k v tset).get k tget = some v ↔ tget - tset < c.ttl)
    ∧ (c.ttl ≤ tget - tset → (c.set k v tset).get k tget = none) := by
  have hget : (c.set k v tset).get k tget
      = if tget - tset < c.ttl then some v else none := by
    simp [LeakyLocalCache.get, LeakyLocalCache.set, lookupEntry]
  refine ⟨⟨fun hsome => ?_, fun hlt => by rw [hget, if_pos hlt]⟩, fun hge => ?_⟩
  · by_contra hnot
    rw [hget, if_neg hnot] at hsome
    exact Option.noConfusion hsome
  · rw [hget, if_neg (by omega)]

/-- Witness for C1 at a concrete cache, key, value and times. -/
theorem leakyLocalCache_ttl_witness :
    ((⟨5, []⟩ : LeakyLocalCache Nat Nat).set 0 7 0).get 0 3 = some 7 :=
  (leakyLocalCache_ttl ⟨5, []⟩ 0 7 0 3 (by decide)).1.mpr (by decide)

/-- C2: for every call to `getPeopleAcrossOrganizations`: if the cache lookup
under the constant key returns a value, that cached snapshot is returned and
the membership provider is not invoked; if the lookup returns absent, the
provider is invoked exactly once and its result is both stored in the cache
and returned. -/
theorem getPeopleAcrossOrganizations_cache_behavior {E Link : Type}
    (getMembers : Except E (ICrossOrganizationMembersResult Link))
    (cache : LeakyLocalCache Bool (ICrossOrganizationMembersResult Link))
    (now : Nat) :
    (∀ v, cache.get true now = some v →
      getPeopleAcrossOrganizations crossOrgResultTruthy getMembers cache now
        = { result := Except.ok v, cache := cache, getMembersCalls := 0 })
    ∧ (cache.get true now = none →
      (getPeopleAcrossOrganizations crossOrgResultTruthy getMembers cache now).getMembersCalls = 1
      ∧ ∀ m, getMembers = Except.ok m →
        getPeopleAcrossOrganizations crossOrgResultTruthy getMembers cache now
          = { result := Except.ok m, cache := cache.set true m now, getMembersCalls := 1 }) := by
  constructor
  · intro v hv
    simp [getPeopleAcrossOrganizations, hv, crossOrgResultTruthy]
  · intro hnone
    refine ⟨?_, ?_⟩
    · cases getMembers <;> simp [getPeopleAcrossOrganizations, hnone]
    · intro m hm
      subst hm
      simp [getPeopleAcrossOrganizations, hnone]

/-- Witness for C2 at a concrete empty cache and successful provider result. -/
theorem getPeopleAcrossOrganizations_cache_behavior_witness :
    getPeopleAcrossOrganizations crossOrgResultTruthy
        (Except.ok ⟨[]⟩ : Except Unit (ICrossOrganizationMembersResult Unit)) ⟨5, []⟩ 0
      = { result := Except.ok ⟨[]⟩, cache := LeakyLocalCache.set ⟨5, []⟩ true ⟨[]⟩ 0,
          getMembersCalls := 1 } :=
  ((getPeopleAcrossOrganizations_cache_behavior
      (Except.ok ⟨[]⟩) ⟨5, []⟩ 0).2 rfl).2 ⟨[]⟩ rfl

/-- C3: for every call to `getPeopleAcrossOrganizations` in which the
membership fetch fails, the failure propagates to the caller and the cache
state is left unchanged — no negative or stale marker is stored — so the
next call retries the fetch. -/
theorem getPeopleAcrossOrganizations_error_propagates {E Link : Type} (e : E)
    (getMembersRetry : Except E (ICrossOrganizationMembersResult Link))
    (cache : LeakyLocalCache Bool (ICrossOrganizationMembersResult Link))
    (now : Nat) (h : cache.get true now = none) :
    getPeopleAcrossOrganizations crossOrgResultTruthy (Except.error e) cache now
      = { result := Except.error e, cache := cache, getMembersCalls := 1 }
    ∧ (getPeopleAcrossOrganizations crossOrgResultTruthy getMembersRetry
        (getPeopleAcrossOrganizations crossOrgResultTruthy (Except.error e) cache now).cache
        now).getMembersCalls = 1 := by
  have hfail :
      getPeopleAcrossOrganizations crossOrgResultTruthy
          (Except.error e) cache now
        = { result := Except.error e, cache := cache, getMembersCalls := 1 } := by
    simp [getPeopleAcrossOrganizations, h]
  refine ⟨hfail, ?_⟩
  rw [hfail]
  cases getMembersRetry <;> simp [getPeopleAcrossOrganizations, h]

/-- Witness for C3 at a concrete empty cache: the error propagates, nothing
is stored, and the immediate retry invokes the provider again. -/
theorem getPeopleAcrossOrganizations_error_propagates_witness :
    getPeopleAcrossOrganizations crossOrgResultTruthy
        (Except.error 42 : Except Nat (ICrossOrganizationMembersResult Unit)) ⟨5, []⟩ 0
      = { result := Except.error 42, cache := ⟨5, []⟩, getMembersCalls := 1 } :=
  (getPeopleAcrossOrganizations_error_propagates 42 (Except.error 42)
    ⟨5, []⟩ 0 rfl).1

/-- C9: the cached-snapshot check in `getPeopleAcrossOrganizations` uses
JavaScript truthiness: a falsy value held in the cache under the constant
key is treated exactly like a cache miss — the membership provider is
re-invoked and its successful result overwrites the slot — so a falsy
snapshot is never served from the cache. -/
theorem getPeopleAcrossOrganizations_falsy_is_miss {E V : Type}
    (truthy : V → Bool) (getMembers : Except E V)
    (cache : LeakyLocalCache Bool V) (now : Nat) (v : V)
    (hget : cache.get true now = some v) (hfalsy : truthy v = false) :
    (getPeopleAcrossOrganizations truthy getMembers cache now).getMembersCalls = 1
    ∧ (∀ m, getMembers = Except.ok m →
      getPeopleAcrossOrganizations truthy getMembers cache now
        = { result := Except.ok m, cache := cache.set true m now, getMembersCalls := 1 })
    ∧ (∀ e, getMembers = Except.error e →
      getPeopleAcrossOrganizations truthy getMembers cache now
        = { result := Except.error e, cache := cache, getMembersCalls := 1 }) := by
  refine ⟨?_, ?_, ?_⟩
  · cases getMembers <;> simp [getPeopleAcrossOrganizations, hget, hfalsy]
  · intro m hm
    subst hm
    simp [getPeopleAcrossOrganizations, hget, hfalsy]
  · intro e he
    subst he
    simp [getPeopleAcrossOrganizations, hget, hfalsy]

/-- Witness for C9 at a concrete cache whose slot holds the falsy value
`none` (JavaScript `null`): the provider is invoked and its result stored. -/
theorem getPeopleAcrossOrganizations_falsy_is_miss_witness :
    getPeopleAcrossOrganizations Option.isSome
        (Except.ok (some 3) : Except Unit (Option Nat))
        ⟨5, [(true, (none : Option Nat), 0)]⟩ 0
      = { result := Except.ok (some 3),
          cache := LeakyLocalCache.set ⟨5, [(true, none, 0)]⟩ true (some 3) 0,
          getMembersCalls := 1 } :=
  (getPeopleAcrossOrganizations_falsy_is_miss Option.isSome
      (Except.ok (some 3)) ⟨5, [(true, none, 0)]⟩ 0 none rfl rfl).2.1
    (some 3) rfl

/-- C4: for every ordered result collection `xs`, page size `P > 0` and page
number `N ≥ 1`, the page slicer returns exactly the contiguous sub-sequence
of indices `[(N-1)*P, N*P)` clipped to the collection bounds — its length is
`min P (L - (N-1)*P)` and its `i`-th element is the input's element at index
`(N-1)*P + i` — and when `(N-1)*P ≥ L` the returned page is empty. -/
theorem jsonPager_slice_contiguous {α : Type} (xs : List α) (P N : Nat)
    (hP : 0 < P) (hN : 1 ≤ N) :
    (JsonPager.slice (some (N : Int)) P xs).length
      = min P (xs.length - (N - 1) * P)
    ∧ (∀ i : Nat, i < (JsonPager.slice (some (N : Int)) P xs).length →
        (JsonPager.slice (some (N : Int)) P xs)[i]? = xs[(N - 1) * P + i]?)
    ∧ (xs.length ≤ (N - 1) * P → JsonPager.slice (some (N : Int)) P xs = []) := by
  have hpn : JsonPager.effectivePageNumber (some (N : Int)) = N := by
    rw [JsonPager.effectivePageNumber]
    rw [if_neg (by exact_mod_cast Nat.not_lt.mpr hN)]
    exact Int.toNat_natCast N
  have hslice : JsonPager.slice (some (N : Int)) P xs
      = (xs.drop ((N - 1) * P)).take P := by
    rw [JsonPager.slice, hpn]
  refine ⟨?_, ?_, ?_⟩
  · rw [hslice, List.length_take, List.length_drop]
  · intro i hi
    rw [hslice] at hi ⊢
    rw [List.length_take, List.length_drop] at hi
    rw [List.getElem?_take_of_lt (lt_of_lt_of_le hi (min_le_left _ _)),
      List.getElem?_drop]
  · intro hbeyond
    rw [hslice, List.drop_eq_nil_of_le hbeyond, List.take_nil]

/-- Witness for C4 at a concrete collection, page size and page number:
page 2 of size 2 over a five-element list. -/
theorem jsonPager_slice_contiguous_witness :
    (JsonPager.slice (some 2) 2 [10, 20, 30, 40, 50]).length
      = min 2 ([10, 20, 30, 40, 50].length - (2 - 1) * 2) :=
  (jsonPager_slice_contiguous [10, 20, 30, 40, 50] 2 2 (by decide) (by decide)).1

/-- C5: a `type` query value not in the valid set
`{linked, active, unlinked, former, serviceAccount, unknownAccount, owners}`
is normalized to no type filter, so the request's display filters and search
parameters are identical to those of a request with no `type` parameter. -/
theorem invalid_type_is_no_filter (t : String)
    (h : validTypes.contains t = false) (qPhrase : Option String)
    (orgId : Option Int) :
    equivalentLegacyPeopleSearchSetup (some t) qPhrase orgId
      = equivalentLegacyPeopleSearchSetup none qPhrase orgId := by
  have hmem : t ∉ validTypes := by simpa using h
  simp [equivalentLegacyPeopleSearchSetup, normalizeTypeFilter, hmem]

/-- Witness for C5 at the concrete invalid type value `"bogus"` with a
phrase supplied. -/
theorem invalid_type_is_no_filter_witness :
    equivalentLegacyPeopleSearchSetup (some "bogus") (some "octo") (some 7)
      = equivalentLegacyPeopleSearchSetup none (some "octo") (some 7) :=
  invalid_type_is_no_filter "bogus" (by decide) (some "octo") (some 7)

/-- C8: the effective page number is 1 when the `page_number` query parameter
is absent — both in `equivalentLegacyPeopleSearch` (line 43) and in the
pager — and a requested page number below 1 is normalized to 1 before
slicing, so slicing with it equals slicing with page 1. -/
theorem page_number_default_and_floor {α : Type} (number : String → Int)
    (n : Int) (hn : n < 1) :
    searchPageFromQuery number none = 1
    ∧ JsonPager.effectivePageNumber none = 1
    ∧ JsonPager.effectivePageNumber (some n) = 1
    ∧ (∀ (P : Nat) (xs : List α),
        JsonPager.slice (some n) P xs = JsonPager.slice (some 1) P xs) := by
  refine ⟨rfl, rfl, ?_, ?_⟩
  · rw [JsonPager.effectivePageNumber, if_pos hn]
  · intro P xs
    rw [JsonPager.slice, JsonPager.slice, JsonPager.effectivePageNumber,
      if_pos hn]
    rfl

/-- Witness for C8 at the concrete out-of-range page number 0: slicing a
three-element list with page 0 equals slicing it with page 1. -/
theorem page_number_default_and_floor_witness :
    JsonPager.slice (some 0) 2 [1, 2, 3] = JsonPager.slice (some 1) 2 [1, 2, 3] :=
  (page_number_default_and_floor (fun _ => 0) 0 (by decide)).2.2.2 2 [1, 2, 3]

/-- C6: for every member record, the normalized output's `organizations`
field is exactly the list of keys of the member's per-organization mapping
in the order provided, or the empty list when the mapping is absent; and no
value data from that mapping influences the output record — two members
whose mappings share keys but differ arbitrarily in values normalize to
identical records. -/
theorem normalize_organizations_keys_only {Link LinkJson : Type}
    (linkToJson : Link → LinkJson)
    (m : ICrossOrganizationSearchedMember Link)
    (os os' : List (String × ISimpleAccount)) :
    (normalizeSearchedMember linkToJson { m with orgs := some os }).organizations
      = some (os.map Prod.fst)
    ∧ (normalizeSearchedMember linkToJson { m with orgs := none }).organizations
      = some []
    ∧ (os.map Prod.fst = os'.map Prod.fst →
        normalizeSearchedMember linkToJson { m with orgs := some os }
          = normalizeSearchedMember linkToJson { m with orgs := some os' }) := by
  refine ⟨?_, ?_, ?_⟩
  · cases m.account <;>
      simp [normalizeSearchedMember, JsOutputObj.assign, Option.orElse]
  · cases m.account <;>
      simp [normalizeSearchedMember, JsOutputObj.assign, Option.orElse]
  · intro hkeys
    cases m.account <;>
      simp [normalizeSearchedMember, JsOutputObj.assign, Option.orElse, hkeys]

/-- Witness for C6 at a concrete member whose mapping has keys `org-a`,
`org-b` with distinct account values under each. -/
theorem normalize_organizations_keys_only_witness :
    (normalizeSearchedMember (fun (l : Nat) => l)
        { id := 5, account := none, link := none,
          orgs := some [("org-a", { login := "a", avatar_url := "u", id := 1 }),
                        ("org-b", { login := "b", avatar_url := "v", id := 2 })] }).organizations
      = some ["org-a", "org-b"] :=
  (normalize_organizations_keys_only (fun (l : Nat) => l)
      { id := 5, account := none, link := none, orgs := none }
      [("org-a", { login := "a", avatar_url := "u", id := 1 }),
       ("org-b", { login := "b", avatar_url := "v", id := 2 })] []).1

/-- C7: the normalized output takes its identity fields (login, avatar
reference, numeric id) from the member's account sub-record when present,
and falls back to a minimal identity record carrying only the member's id
when absent; independently, the `link` field is the serialized corporate
link when present and JavaScript `null` otherwise. -/
theorem normalize_identity_and_link {Link LinkJson : Type}
    (linkToJson : Link → LinkJson)
    (m : ICrossOrganizationSearchedMember Link) (a : ISimpleAccount)
    (l : Link) :
    ((normalizeSearchedMember linkToJson { m with account := some a }).login
        = some a.login
      ∧ (normalizeSearchedMember linkToJson { m with account := some a }).avatar_url
        = some a.avatar_url
      ∧ (normalizeSearchedMember linkToJson { m with account := some a }).id
        = some a.id)
    ∧ ((normalizeSearchedMember linkToJson { m with account := none }).login
        = none
      ∧ (normalizeSearchedMember linkToJson { m with account := none }).avatar_url
        = none
      ∧ (normalizeSearchedMember linkToJson { m with account := none }).id
        = some m.id)
    ∧ (normalizeSearchedMember linkToJson { m with link := some l }).link
        = some (some (linkToJson l))
    ∧ (normalizeSearchedMember linkToJson { m with link := none }).link
        = some none := by
  refine ⟨⟨?_, ?_, ?_⟩, ⟨?_, ?_, ?_⟩, ?_, ?_⟩ <;>
    cases m.account <;>
      simp [normalizeSearchedMember, JsOutputObj.assign, Option.orElse]

/-- Witness for C7 at a concrete member with an account sub-record. -/
theorem normalize_identity_and_link_witness :
    (normalizeSearchedMember (fun (l : Nat) => l)
        { id := 5, account := some { login := "octo", avatar_url := "u", id := 9 },
          link := none, orgs := none }).login = some "octo" :=
  (normalize_identity_and_link (fun (l : Nat) => l)
      { id := 5, account := none, link := none, orgs := none }
      { login := "octo", avatar_url := "u", id := 9 } 0).1.1

/-- C10: the account sub-record's fields are merged over the pre-assembled
base object, so the shared field name `id` takes its value from the account
sub-record: when the account is present the output's `id` is the account's
id, and when that id differs from the member's top-level id the output's
`id` is not the member's. -/
theorem normalize_account_id_overrides {Link LinkJson : Type}
    (linkToJson : Link → LinkJson)
    (m : ICrossOrganizationSearchedMember Link) (a : ISimpleAccount) :
    (normalizeSearchedMember linkToJson { m with account := some a }).id
      = some a.id
    ∧ (a.id ≠ m.id →
      (normalizeSearchedMember linkToJson { m with account := some a }).id
        ≠ some m.id) := by
  have hid : (normalizeSearchedMember linkToJson { m with account := some a }).id
      = some a.id := by
    simp [normalizeSearchedMember, JsOutputObj.assign, Option.orElse]
  refine ⟨hid, fun hne heq => hne ?_⟩
  rw [hid] at heq
  exact Option.some.inj heq

/-- Witness for C10 at a concrete member whose account id 9 differs from its
top-level id 5: the output record carries id 9. -/
theorem normalize_account_id_overrides_witness :
    (normalizeSearchedMember (fun (l : Nat) => l)
        { id := 5, account := some { login := "octo", avatar_url := "u", id := 9 },
          link := none, orgs := none }).id = some 9 :=
  (normalize_account_id_overrides (fun (l : Nat) => l)
      { id := 5, account := none, link := none, orgs := none }
      { login := "octo", avatar_url := "u", id := 9 }).1
